import Mathlib

/-!
Verification of the exercise-form analysis engine
(`backend/app/analysis.py`, class `FormAnalyzer`).

The Python code is shallowly embedded: dictionaries become structures or
association lists, Python's `round` (banker's rounding) becomes an explicit
half-to-even rounding on `ℚ`/`ℝ`, float arithmetic is idealised as exact
rational/real arithmetic, and `statistics.stdev` becomes the sample standard
deviation expressed with `Real.sqrt`.
-/

/-- The five canonical check names iterated by every aggregate in the source
(`["depth", "knee_tracking", "torso_angle", "heel_lift", "asymmetry"]`). -/
inductive CheckName where
  | depth
  | knee_tracking
  | torso_angle
  | heel_lift
  | asymmetry
deriving DecidableEq, Repr

/-- The canonical ordered list of check names, in source order. -/
def canonicalChecks : List CheckName :=
  [.depth, .knee_tracking, .torso_angle, .heel_lift, .asymmetry]

/-- Position of a check in the canonical order (used to state tie-breaking). -/
def CheckName.idx : CheckName → ℕ
  | .depth => 0
  | .knee_tracking => 1
  | .torso_angle => 2
  | .heel_lift => 3
  | .asymmetry => 4

/-- `self.severity_weights.get(severity, 0)`: the fixed ordinal mapping
`{low: 0, moderate: 1, high: 2}` with default 0 for unknown strings. -/
def severity_weights (s : String) : ℕ :=
  if s = "low" then 0
  else if s = "moderate" then 1
  else if s = "high" then 2
  else 0

/-- Evidence attached to a check result: a mapping from metric name to an
optional numeric value (spec section 3). -/
abbrev Evidence := List (String × Option ℚ)

/-- One check result on one rep: the `severity` and `evidence` keys may each
be absent (Python `check.get("severity", "low")` / `check.get("evidence", {})`). -/
structure CheckRes where
  severity : Option String
  evidence : Option Evidence
deriving DecidableEq

/-- One rep: its `checks` dictionary, keyed by the canonical check names
(spec section 3: zero or more of the five canonical names).  A Python dict is
embedded as an association list; `rep.get("checks", {})` with the key absent
is the empty list. -/
structure RepRecord where
  checks : List (CheckName × CheckRes)
deriving DecidableEq

/-- `rep.get("checks", {}).get(check_name, {})`: the check result for a given
name, defaulting to the empty dict (both fields absent). -/
def RepRecord.getCheckD (r : RepRecord) (c : CheckName) : CheckRes :=
  (r.checks.lookup c).getD ⟨none, none⟩

/-- `check.get("severity", "low")` for a given check name. -/
def RepRecord.sevFor (r : RepRecord) (c : CheckName) : String :=
  (r.getCheckD c).severity.getD "low"

/-- The severity weight of a rep for a given check. -/
def RepRecord.wgtFor (r : RepRecord) (c : CheckName) : ℕ :=
  severity_weights (r.sevFor c)

/-- `check.get("evidence", {})` for a given check name. -/
def RepRecord.evFor (r : RepRecord) (c : CheckName) : Evidence :=
  (r.getCheckD c).evidence.getD []

/-- A session record as read from the store.  `timestamp` and the stored
`rep_count` field may be absent; `session.get("reps", [])` with the key absent
behaves as the empty list, so `reps` is embedded as a plain list.  The id
fields are not read by the analysis after fetch and are not modelled. -/
structure Session where
  timestamp : Option ℕ
  rep_count : Option ℤ
  reps : List RepRecord
deriving DecidableEq

/-- Python `round(x, d)`, integer part: round half to even on `ℚ`. -/
def rndHalfEven (x : ℚ) : ℤ :=
  if x - ⌊x⌋ < 1/2 then ⌊x⌋
  else if 1/2 < x - ⌊x⌋ then ⌊x⌋ + 1
  else if Even ⌊x⌋ then ⌊x⌋ else ⌊x⌋ + 1

/-- Python `round(x, d)` on `ℚ` (the float arithmetic is idealised as exact). -/
def pyround (d : ℕ) (x : ℚ) : ℚ :=
  (rndHalfEven (x * 10 ^ d) : ℚ) / 10 ^ d

/-- Python `round(x, d)`, integer part, on `ℝ`. -/
noncomputable def rndHalfEvenR (x : ℝ) : ℤ :=
  if x - ⌊x⌋ < 1/2 then ⌊x⌋
  else if 1/2 < x - ⌊x⌋ then ⌊x⌋ + 1
  else if Even ⌊x⌋ then ⌊x⌋ else ⌊x⌋ + 1

/-- Python `round(x, d)` on `ℝ`. -/
noncomputable def pyroundR (d : ℕ) (x : ℝ) : ℝ :=
  (rndHalfEvenR (x * 10 ^ d) : ℝ) / 10 ^ d

/-- Per-check entry of `checks_summary` in `_analyze_single_session`. -/
structure CheckCounts where
  ok : ℕ
  watch : ℕ
  flag : ℕ
  flag_percentage : ℚ
deriving DecidableEq

/-- Result dict of `_analyze_single_session`. -/
structure SessionSummary where
  rep_count : ℕ
  checks_summary : List (CheckName × CheckCounts)
deriving DecidableEq

/-- The severity strings of all reps for one check
(the `severities` list built in `_analyze_single_session`). -/
def severitiesFor (reps : List RepRecord) (c : CheckName) : List String :=
  reps.map (fun r => r.sevFor c)

/-- `FormAnalyzer._analyze_single_session`. -/
def analyze_single_session (s : Session) : SessionSummary :=
  let reps := s.reps
  let rep_count := reps.length
  if rep_count = 0 then ⟨0, []⟩
  else
    ⟨rep_count, canonicalChecks.map (fun c =>
      let sevs := severitiesFor reps c
      let flag_count := sevs.count "high"
      let watch_count := sevs.count "moderate"
      let ok_count := sevs.count "low"
      (c, ⟨ok_count, watch_count, flag_count,
           pyround 1 (if 0 < rep_count then (flag_count : ℚ) / rep_count * 100 else 0)⟩))⟩

/-- `avg_score` of one check in `_identify_weak_areas`:
`total_score / len(reps) if reps else 0`. -/
def avg_score (reps : List RepRecord) (c : CheckName) : ℚ :=
  if reps = [] then 0
  else ((reps.map (fun r => r.wgtFor c)).sum : ℚ) / reps.length

/-- Stable insertion step for a descending sort by score: a new element goes
after every already-placed element whose score is at least as large.  Together
with `sortDescBy` this models Python's stable
`sorted(check_scores.items(), key=lambda x: x[1], reverse=True)`. -/
def insertDescBy (a : CheckName × ℚ) : List (CheckName × ℚ) → List (CheckName × ℚ)
  | [] => [a]
  | b :: l => if a.2 ≤ b.2 then b :: insertDescBy a l else a :: b :: l

/-- Stable descending sort by score (see `insertDescBy`). -/
def sortDescBy (l : List (CheckName × ℚ)) : List (CheckName × ℚ) :=
  l.foldl (fun acc a => insertDescBy a acc) []

/-- The worst-rep scan in `_identify_weak_areas`: fold over the reps keeping
the severity string and evidence of the first rep whose severity weight
strictly exceeds the best seen so far (initially `("low", None)`). -/
def worstForCheck (reps : List RepRecord) (c : CheckName) : String × Option Evidence :=
  reps.foldl (fun acc r =>
    if severity_weights acc.1 < r.wgtFor c then (r.sevFor c, some (r.evFor c)) else acc)
    ("low", none)

/-- `FormAnalyzer._get_cue_for_check`: the fixed 5 x 3 coaching-cue table with
generic fallback. -/
def get_cue_for_check (c : CheckName) (severity : String) : String :=
  match c with
  | .depth =>
    if severity = "high" then "Squat deeper - aim for hip crease below knee level."
    else if severity = "moderate" then "Increase depth slightly for better muscle engagement."
    else if severity = "low" then "Great depth control!"
    else "Keep working on this area."
  | .knee_tracking =>
    if severity = "high" then "Knees are caving inward (valgus). Push them out over your toes."
    else if severity = "moderate" then "Watch for slight knee inward drift - keep them stable."
    else if severity = "low" then "Excellent knee tracking!"
    else "Keep working on this area."
  | .torso_angle =>
    if severity = "high" then "Your torso is leaning too far forward. Brace your core, stay upright."
    else if severity = "moderate" then "Slight forward lean detected. Keep your chest proud."
    else if severity = "low" then "Perfect torso position!"
    else "Keep working on this area."
  | .heel_lift =>
    if severity = "high" then "Heels are lifting - shift weight to mid-foot. Consider heel-elevated shoes."
    else if severity = "moderate" then "Minor heel lift visible. Focus on weight distribution."
    else if severity = "low" then "Excellent heel stability!"
    else "Keep working on this area."
  | .asymmetry =>
    if severity = "high" then "Major imbalance between left and right. Correct asymmetry before increasing load."
    else if severity = "moderate" then "Slight side-to-side imbalance. Work on symmetry."
    else if severity = "low" then "Perfect symmetry!"
    else "Keep working on this area."

/-- One entry of the weak-area list. -/
structure WeakArea where
  check : CheckName
  severity_score : ℚ
  worst_severity : String
  evidence : Evidence
  cue : String
deriving DecidableEq

/-- `FormAnalyzer._identify_weak_areas`. -/
def identify_weak_areas (s : Session) : List WeakArea :=
  let reps := s.reps
  let check_scores := canonicalChecks.map (fun c => (c, avg_score reps c))
  (((sortDescBy check_scores).filter (fun p => 0 < p.2)).map (fun p =>
    let w := worstForCheck reps p.1
    { check := p.1
      severity_score := pyround 2 p.2
      worst_severity := w.1
      evidence := w.2.getD []
      cue := get_cue_for_check p.1 w.1 })).take 5

/-- The severity weights of all reps for one check (the `scores` list in
`_calculate_consistency` / `_identify_weak_areas`). -/
def scoresFor (reps : List RepRecord) (c : CheckName) : List ℕ :=
  reps.map (fun r => r.wgtFor c)

/-- `statistics.mean` on rationals (guarded; only applied to nonempty lists,
as in the source). -/
def listMean (xs : List ℚ) : ℚ :=
  if xs = [] then 0 else xs.sum / xs.length

/-- Sample variance, the square of `statistics.stdev` (guarded; the source
only calls `stdev` on lists with at least two distinct values, hence length
at least 2). -/
def sampleVariance (xs : List ℚ) : ℚ :=
  if xs.length ≤ 1 then 0
  else ((xs.map (fun x => (x - listMean xs) ^ 2)).sum) / ((xs.length : ℚ) - 1)

/-- `statistics.stdev` of a list of severity weights: square root of the
sample variance (float arithmetic idealised as exact reals). -/
noncomputable def sampleStdev (xs : List ℕ) : ℝ :=
  Real.sqrt ((sampleVariance (xs.map (fun n => (Nat.cast n : ℚ))) : ℚ) : ℝ)

/-- The `check_variances` dict of `_calculate_consistency`: for each canonical
check, the sample standard deviation of its severity weights across reps,
recorded only when the list has more than one distinct value
(`len(set(scores)) > 1`, embedded as `dedup`). -/
noncomputable def check_variances (s : Session) : List (CheckName × ℝ) :=
  canonicalChecks.filterMap (fun c =>
    let scores := scoresFor s.reps c
    if 1 < scores.dedup.length then some (c, sampleStdev scores) else none)

/-- `avg_variance = mean(check_variances.values()) if check_variances else 0`. -/
noncomputable def avg_variance (s : Session) : ℝ :=
  match check_variances s with
  | [] => 0
  | v :: vs => ((v :: vs).map Prod.snd).sum / ((v :: vs).length : ℝ)

/-- Result of `_calculate_consistency`: the insufficient-data dict has two
keys, the computed dict three, hence two constructors. -/
inductive ConsistencyResult where
  | insufficientData (consistency_score : ℝ) (interpretation : String)
  | scored (consistency_score : ℝ) (interpretation : String)
      (check_variances : List (CheckName × ℝ))

/-- The `consistency_score` field of either result shape. -/
def ConsistencyResult.score : ConsistencyResult → ℝ
  | .insufficientData sc _ => sc
  | .scored sc _ _ => sc

/-- `FormAnalyzer._calculate_consistency`. -/
noncomputable def calculate_consistency (s : Session) : ConsistencyResult :=
  if s.reps.length < 2 then .insufficientData 1 "Insufficient data"
  else
    let av := avg_variance s
    let consistency_score : ℝ := max 0 (1 - av / 2.5)
    let interpretation :=
      if 0.8 < consistency_score then "Excellent"
      else if 0.6 < consistency_score then "Good"
      else if 0.4 < consistency_score then "Fair"
      else "Needs improvement"
    .scored (pyroundR 2 consistency_score) interpretation
      ((check_variances s).map (fun p => (p.1, pyroundR 2 p.2)))

/-- Per-check trend entry (`{"trend": ..., "change": ...}`). -/
structure TrendInfo where
  trend : String
  change : ℚ
deriving DecidableEq

/-- Result of `_calculate_trends`: the insufficient-data dict has keys
`trend` / `interpretation` / `rep_trend`, the computed dict has keys
`check_failure_trends` / `rep_count_trend` / `interpretation`. -/
inductive TrendResult where
  | insufficientHistory (trend : String) (interpretation : String)
      (rep_trend : Option String)
  | computed (check_failure_trends : List (CheckName × TrendInfo))
      (rep_count_trend : String) (interpretation : String)
deriving DecidableEq

/-- `trends.get("check_failure_trends", {})` in `_generate_recommendations`. -/
def TrendResult.getCheckFailureTrends : TrendResult → List (CheckName × TrendInfo)
  | .insufficientHistory _ _ _ => []
  | .computed ts _ _ => ts

/-- `trends.get("rep_count_trend")` in `_generate_recommendations`. -/
def TrendResult.getRepCountTrend : TrendResult → Option String
  | .insufficientHistory _ _ _ => none
  | .computed _ rt _ => some rt

/-- Per-session failure rate of one check in `_calculate_trends`:
`(failures / len(reps) * 100) if reps else 0` where a failure is a rep whose
check severity equals `"high"`. -/
def failure_rate (c : CheckName) (s : Session) : ℚ :=
  let reps := s.reps
  let failures := (reps.filter (fun r => (r.getCheckD c).severity = some "high")).length
  if reps = [] then 0 else (failures : ℚ) / reps.length * 100

/-- The sort key of `sorted(history, key=lambda x: x.get("timestamp", now))`:
a missing timestamp defaults to the current time. -/
def sessSortKey (now : ℕ) (s : Session) : ℕ := s.timestamp.getD now

/-- Stable insertion step for the ascending sort of history by timestamp: a
new element goes after every already-placed element whose key is at most as
large.  Together with `sortByTimestamp` this models Python's stable `sorted`. -/
def insertAscBy (now : ℕ) (a : Session) : List Session → List Session
  | [] => [a]
  | b :: l => if sessSortKey now b ≤ sessSortKey now a then b :: insertAscBy now a l
              else a :: b :: l

/-- Stable ascending sort of history by timestamp (see `insertAscBy`). -/
def sortByTimestamp (now : ℕ) (l : List Session) : List Session :=
  l.foldl (fun acc a => insertAscBy now a acc) []

/-- `FormAnalyzer._interpret_trends`: the fixed five-way decision table. -/
def interpret_trends (check_trends : List (CheckName × TrendInfo))
    (rep_trend : String) : String :=
  let improving_checks := (check_trends.filter (fun p => p.2.trend = "improving")).length
  let degrading_checks := (check_trends.filter (fun p => p.2.trend = "degrading")).length
  if degrading_checks < improving_checks ∧ rep_trend = "increasing" then
    "\xf0ŸŽ\xaf Great progress! Form is improving and stamina is increasing."
  else if improving_checks < degrading_checks ∧ rep_trend = "decreasing" then
    "\xe2š\xa0\xef\xb8 Form is degrading. Consider shorter sets or more rest."
  else if degrading_checks < improving_checks then
    "\xe2œ… Form is improving! Keep up the momentum."
  else if improving_checks < degrading_checks then
    "\xe2š\xa0\xef\xb8 Some form areas are declining. May indicate fatigue."
  else
    "\xf0Ÿ“Š Form is stable. Maintain current technique."

/-- `FormAnalyzer._calculate_trends`. -/
def calculate_trends (now : ℕ) (history : List Session) : TrendResult :=
  if history.length < 2 then
    .insufficientHistory "insufficient_data" "Need more sessions to detect trends" none
  else
    let sorted_history := sortByTimestamp now history
    let window := sorted_history.take 5
    let check_failure_trends : List (CheckName × TrendInfo) :=
      canonicalChecks.filterMap (fun c =>
        let failure_rates := window.map (failure_rate c)
        if 1 < failure_rates.length then
          let rfirst := failure_rates.headD 0
          let rlast := failure_rates.getLastD 0
          some (c, ⟨if rlast < rfirst then "improving"
                    else if rfirst < rlast then "degrading" else "stable",
                    pyround 1 (rlast - rfirst)⟩)
        else none)
    let rep_counts : List ℤ := window.map (fun s => s.rep_count.getD 0)
    let rep_trend :=
      if 1 < rep_counts.length ∧ rep_counts.headD 0 < rep_counts.getLastD 0 then "increasing"
      else if 1 < rep_counts.length ∧ rep_counts.getLastD 0 < rep_counts.headD 0 then "decreasing"
      else "stable"
    .computed check_failure_trends rep_trend
      (interpret_trends check_failure_trends rep_trend)

/-- One row of `_compare_to_history`'s result (`current` is not rounded in the
source; the average and the delta are rounded to 1 decimal). -/
structure CompareStats where
  current : ℚ
  historical_avg : ℚ
  vs_avg : ℚ
deriving DecidableEq

/-- Result of `_compare_to_history`: either the one-key insufficient-data dict
or the full two-entry dict. -/
inductive ComparisonResult where
  | insufficientHistory
  | compared (rep_count : CompareStats) (critical_issues : CompareStats)
deriving DecidableEq

/-- Count of checks with severity `"high"` summed over all reps of a session
(the `current_flags` / per-history-session sum in `_compare_to_history`). -/
def count_critical (s : Session) : ℕ :=
  (s.reps.map (fun r => (r.checks.filter (fun p => p.2.severity = some "high")).length)).sum

/-- `FormAnalyzer._compare_to_history`. -/
def compare_to_history (current_session : Session) (history : List Session) :
    ComparisonResult :=
  if history.length < 2 then .insufficientHistory
  else
    let hist := history.drop 1
    let current_reps : ℚ := (current_session.rep_count.getD 0 : ℚ)
    let avg_reps : ℚ :=
      if hist = [] then 0 else listMean (hist.map (fun s => (s.rep_count.getD 0 : ℚ)))
    let current_flags : ℚ := (count_critical current_session : ℚ)
    let avg_flags : ℚ :=
      if hist = [] then 0 else listMean (hist.map (fun s => (count_critical s : ℚ)))
    .compared ⟨current_reps, pyround 1 avg_reps, pyround 1 (current_reps - avg_reps)⟩
              ⟨current_flags, pyround 1 avg_flags, pyround 1 (current_flags - avg_flags)⟩

/-- `check_name.replace("_", " ").title()` on the five canonical names. -/
def check_label : CheckName → String
  | .depth => "Depth"
  | .knee_tracking => "Knee Tracking"
  | .torso_angle => "Torso Angle"
  | .heel_lift => "Heel Lift"
  | .asymmetry => "Asymmetry"

/-- The priority-fix recommendation string. -/
def priorityFixMsg (label : String) : String :=
  "\xf0Ÿ”\xb4 Priority: Fix " ++ label ++ " - this is causing major form breaks."

/-- The softer work-on recommendation string. -/
def workOnMsg (label : String) : String :=
  "\xf0ŸŸ\xa1 Work on " ++ label ++ " - several reps showed issues here."

/-- The stop-degrading recommendation string. -/
def stopDegradingMsg (label : String) : String :=
  "\xf0Ÿ›‘ Stop degrading " ++ label ++ ". Take breaks between sets."

/-- The form-over-quantity recommendation string. -/
def moreRepsMsg : String :=
  "\xf0Ÿ’\xaa Aiming for more reps? Focus on form quality over quantity first."

/-- The stamina-praise recommendation string. -/
def staminaMsg : String :=
  "\xf0Ÿš€ Excellent! You\x27re building stamina. Maintain form quality."

/-- The generic encouragement string. -/
def genericTipMsg : String :=
  "\xe2œ\xa8 Keep consistent with form checks between sets."

/-- The closing record-your-sets tip, always appended before truncation. -/
def recordSetsTipMsg : String :=
  "\xf0Ÿ“\xb9 Record your sets to compare form visually over time."

/-- The recommendation list assembled by `_generate_recommendations` before
the closing tip is appended and the 5-element cap is applied: the rule cascade
in source order. -/
def recommendations_before_tip (weak_areas : List WeakArea) (trends : TrendResult) :
    List String :=
  let recs : List String := []
  let recs := match weak_areas with
    | [] => recs
    | top_weak :: _ =>
      if top_weak.worst_severity = "high" then
        recs ++ [priorityFixMsg (check_label top_weak.check)]
      else if top_weak.worst_severity = "moderate" then
        recs ++ [workOnMsg (check_label top_weak.check)]
      else recs
  let recs := recs ++ trends.getCheckFailureTrends.filterMap (fun p =>
      if p.2.trend = "degrading" ∧ 10 < p.2.change then
        some (stopDegradingMsg (check_label p.1))
      else none)
  let recs :=
    if trends.getRepCountTrend = some "decreasing" then recs ++ [moreRepsMsg]
    else if trends.getRepCountTrend = some "increasing" then recs ++ [staminaMsg]
    else recs
  if recs = [] then [genericTipMsg] else recs

/-- `FormAnalyzer._generate_recommendations`: append the closing tip, then
truncate to the first 5 messages. -/
def generate_recommendations (weak_areas : List WeakArea) (trends : TrendResult) :
    List String :=
  (recommendations_before_tip weak_areas trends ++ [recordSetsTipMsg]).take 5

/-- A loosely-typed store value for `_get_safe`: null, a scalar, a list, or a
dictionary (embedded as an association list; Python dict keys are unique, and
lookup takes the first binding). -/
inductive JValue where
  | vnull
  | vstr (s : String)
  | vnum (q : ℚ)
  | vlist (xs : List JValue)
  | vdict (entries : List (String × JValue))

/-- `FormAnalyzer._get_safe`: walk the key path, trying at each step the
canonical key, then its upper-case form, then its lower-case form; return the
default on a missing key or a non-dict value, and also when the final value is
`None` (`return current if current is not None else default`). -/
def get_safe : JValue → List String → JValue → JValue
  | .vnull, [], default => default
  | current, [], _ => current
  | .vdict es, k :: ks, default =>
    match es.lookup k with
    | some v => get_safe v ks default
    | none =>
      match es.lookup k.toUpper with
      | some v => get_safe v ks default
      | none =>
        match es.lookup k.toLower with
        | some v => get_safe v ks default
        | none => default
  | _, _ :: _, default => default

/-- Modelled from the spec (section 4.1) for comparison with `get_safe`: the
pure priority traversal that the contract describes, returning the value found
under the canonical key, its upper-case form, or its lower-case form at each
step, and nothing on a missing key or non-mapping value. -/
def followPath : JValue → List String → Option JValue
  | v, [] => some v
  | .vdict es, k :: ks =>
    match (es.lookup k).or ((es.lookup k.toUpper).or (es.lookup k.toLower)) with
    | some v => followPath v ks
    | none => none
  | _, _ :: _ => none

/-- The assembled analysis result dict of `_analyze_session_mongodb`.  The
top-level `rep_count` comes from the session record's stored `rep_count`
field, while `current_session` is the computed summary. -/
structure AnalysisResult where
  session_id : String
  timestamp : ℕ
  rep_count : ℤ
  current_session : SessionSummary
  trends : TrendResult
  weak_areas : List WeakArea
  consistency : ConsistencyResult
  comparison : ComparisonResult
  recommendations : List String

/-- Assembly of the result dict in `_analyze_session_mongodb` (the
`isoformat` serialisation of the timestamp is not modelled; `now` stands for
`datetime.now(timezone.utc)`). -/
noncomputable def assembleResult (session_id : String) (now : ℕ) (s : Session)
    (history : List Session) : AnalysisResult :=
  { session_id := session_id
    timestamp := s.timestamp.getD now
    rep_count := s.rep_count.getD 0
    current_session := analyze_single_session s
    trends := calculate_trends now history
    weak_areas := identify_weak_areas s
    consistency := calculate_consistency s
    comparison := compare_to_history s history
    recommendations :=
      generate_recommendations (identify_weak_areas s) (calculate_trends now history) }

/-- What `analyze_session` hands back to its caller: either a structured
error payload (`{"error": ...}`) or the full result dict. -/
inductive AnalysisOutcome where
  | failed (error : String)
  | ok (result : AnalysisResult)

/-- `FormAnalyzer._analyze_session_mongodb`, with the two store reads
(`find_one` and the history query) abstracted as `Except`-valued inputs: an
`Except.error` models an exception escaping the store call, which propagates
to `analyze_session`.  A missing session is returned as a normal
`{"error": "Session not found"}` payload, not an exception. -/
noncomputable def analyze_session_mongodb (session_id : String) (now : ℕ)
    (findOneRes : Except String (Option Session))
    (historyRes : Except String (List Session)) : Except String AnalysisOutcome := do
  let current_session ← findOneRes
  match current_session with
  | none => pure (.failed "Session not found")
  | some s => do
    let history ← historyRes
    pure (.ok (assembleResult session_id now s history))

/-- `FormAnalyzer.analyze_session` (MongoDB path): the whole computation is
wrapped in `try/except`, any escaping exception message `e` being returned as
`{"error": f"Analysis failed: {e}"}`. -/
noncomputable def analyze_session (session_id : String) (now : ℕ)
    (findOneRes : Except String (Option Session))
    (historyRes : Except String (List Session)) : AnalysisOutcome :=
  match analyze_session_mongodb session_id now findOneRes historyRes with
  | .ok r => r
  | .error e => .failed ("Analysis failed: " ++ e)

/-! ## Helper lemmas -/

theorem analyze_single_session_rep_count (s : Session) :
    (analyze_single_session s).rep_count = s.reps.length := by
  unfold analyze_single_session
  by_cases h : s.reps.length = 0 <;> simp [h]

theorem mem_insertDescBy {x a : CheckName × ℚ} {l : List (CheckName × ℚ)} :
    x ∈ insertDescBy a l ↔ x = a ∨ x ∈ l := by
  induction l with
  | nil => simp [insertDescBy]
  | cons b t ih =>
    by_cases hc : a.2 ≤ b.2
    · simp only [insertDescBy, if_pos hc, List.mem_cons, ih]
      try tauto
    · simp only [insertDescBy, if_neg hc, List.mem_cons]
      try tauto

theorem mem_sortDescBy_aux {x : CheckName × ℚ} :
    ∀ (l acc : List (CheckName × ℚ)),
      x ∈ l.foldl (fun acc a => insertDescBy a acc) acc ↔ x ∈ acc ∨ x ∈ l := by
  intro l
  induction l with
  | nil => simp
  | cons a t ih =>
    intro acc
    simp only [List.foldl_cons, ih, mem_insertDescBy, List.mem_cons]
    tauto

theorem mem_sortDescBy {x : CheckName × ℚ} {l : List (CheckName × ℚ)} :
    x ∈ sortDescBy l ↔ x ∈ l := by
  unfold sortDescBy
  rw [mem_sortDescBy_aux]
  simp

/-! ## C7: empty sessions degrade gracefully -/

/-- C7: for every session with an empty rep list, the analysis degrades
gracefully: `weak_areas = []`, consistency is exactly
`{consistency_score: 1.0, interpretation: "Insufficient data"}`, and the
single-session summary is exactly `{rep_count: 0, checks_summary: {}}`. -/
theorem empty_session_degrades (s : Session) (h : s.reps = []) :
    identify_weak_areas s = [] ∧
    calculate_consistency s = .insufficientData 1 "Insufficient data" ∧
    analyze_single_session s = ⟨0, []⟩ := by
  obtain ⟨ts, rc, reps⟩ := s
  simp only at h
  subst h
  refine ⟨rfl, ?_, rfl⟩
  unfold calculate_consistency
  simp

theorem empty_session_degrades_witness :
    identify_weak_areas ⟨none, none, []⟩ = [] ∧
    calculate_consistency ⟨none, none, []⟩ = .insufficientData 1 "Insufficient data" ∧
    analyze_single_session ⟨none, none, []⟩ = ⟨0, []⟩ :=
  empty_session_degrades ⟨none, none, []⟩ rfl

/-! ## C10: stored rep_count vs computed rep count -/

/-- C10: in the assembled result the top-level `rep_count` is the session
record's stored `rep_count` field (0 when absent), while
`current_session.rep_count` is the length of the `reps` list; whenever the
stored field differs from the list length the two fields of the result
disagree. -/
theorem rep_count_mismatch (session_id : String) (now : ℕ) (s : Session)
    (history : List Session) :
    (assembleResult session_id now s history).rep_count = s.rep_count.getD 0 ∧
    (assembleResult session_id now s history).current_session.rep_count = s.reps.length ∧
    (s.rep_count.getD 0 ≠ (s.reps.length : ℤ) →
      (assembleResult session_id now s history).rep_count ≠
        ((assembleResult session_id now s history).current_session.rep_count : ℤ)) := by
  refine ⟨rfl, analyze_single_session_rep_count s, fun hne => ?_⟩
  simpa [assembleResult, analyze_single_session_rep_count] using hne

theorem rep_count_mismatch_witness :
    (assembleResult "s1" 0 ⟨none, some 3, [⟨[]⟩]⟩ []).rep_count ≠
      ((assembleResult "s1" 0 ⟨none, some 3, [⟨[]⟩]⟩ []).current_session.rep_count : ℤ) :=
  (rep_count_mismatch "s1" 0 ⟨none, some 3, [⟨[]⟩]⟩ []).2.2 (by decide)

/-! ## C9: orchestrator error handling -/

/-- C9: the orchestrator never raises.  When the store has no matching
session it returns the `Session not found` payload; an exception escaping the
fetch or the computation is returned as a single `Analysis failed: ...`
payload carrying the underlying message; otherwise it returns the full
assembled result, never a partial one. -/
theorem analyze_session_total (session_id : String) (now : ℕ)
    (findOneRes : Except String (Option Session))
    (historyRes : Except String (List Session)) :
    (findOneRes = .ok none →
      analyze_session session_id now findOneRes historyRes = .failed "Session not found") ∧
    (∀ m, findOneRes = .error m →
      analyze_session session_id now findOneRes historyRes =
        .failed ("Analysis failed: " ++ m)) ∧
    (∀ s m, findOneRes = .ok (some s) → historyRes = .error m →
      analyze_session session_id now findOneRes historyRes =
        .failed ("Analysis failed: " ++ m)) ∧
    (∀ s history, findOneRes = .ok (some s) → historyRes = .ok history →
      analyze_session session_id now findOneRes historyRes =
        .ok (assembleResult session_id now s history)) := by
  refine ⟨?_, ?_, ?_, ?_⟩
  · rintro rfl; rfl
  · rintro m rfl; rfl
  · rintro s m rfl rfl; rfl
  · rintro s history rfl rfl; rfl

theorem analyze_session_total_witness :
    analyze_session "s1" 0 (.ok none) (.ok []) = .failed "Session not found" ∧
    analyze_session "s1" 0 (.error "boom") (.ok []) = .failed "Analysis failed: boom" :=
  ⟨(analyze_session_total "s1" 0 (.ok none) (.ok [])).1 rfl,
   (analyze_session_total "s1" 0 (.error "boom") (.ok [])).2.1 "boom" rfl⟩

/-! ## C8: the record normalizer -/

/-- Modelled from the spec (section 4.1), amended with the null case: the
value the priority traversal finds, with the caller default substituted when
the traversal fails or the found value is `None`. -/
def resolveDefault (default : JValue) : Option JValue → JValue
  | some .vnull => default
  | some w => w
  | none => default

/-- C8 (amended): `_get_safe` returns the value found by the priority
traversal (canonical key, then upper-case, then lower-case), the caller
default when the traversal hits a missing key or a non-mapping value at any
step, and also the default when the value finally found is `None`; it is a
total function, so no exception is ever raised. -/
theorem get_safe_characterisation (v : JValue) (keys : List String) (default : JValue) :
    get_safe v keys default = resolveDefault default (followPath v keys) := by
  induction keys generalizing v with
  | nil =>
    cases v <;> rfl
  | cons k ks ih =>
    cases v with
    | vdict es =>
      show get_safe (.vdict es) (k :: ks) default = _
      unfold get_safe followPath
      cases h1 : es.lookup k with
      | some w => simp [h1, Option.or, ih]
      | none =>
        cases h2 : es.lookup k.toUpper with
        | some w => simp [h1, h2, Option.or, ih]
        | none =>
          cases h3 : es.lookup k.toLower with
          | some w => simp [h1, h2, h3, Option.or, ih]
          | none => simp [h1, h2, h3, Option.or, resolveDefault]
    | vnull => rfl
    | vstr s => rfl
    | vnum q => rfl
    | vlist xs => rfl

/-- C8 counterexample: when the value found under the canonical key is
`None`, `_get_safe` returns the caller default instead of the found value, a
case the claim's enumeration (missing key or non-mapping value) does not
cover. -/
theorem get_safe_null_counterexample :
    get_safe (.vdict [("a", .vnull)]) ["a"] (.vnum 42) = .vnum 42 ∧
    followPath (.vdict [("a", .vnull)]) ["a"] = some .vnull ∧
    JValue.vnum 42 ≠ JValue.vnull :=
  ⟨rfl, rfl, fun h => JValue.noConfusion h⟩

/-! ## C1: checks_summary counts -/

theorem count_three_le (l : List String) :
    l.count "high" + l.count "moderate" + l.count "low" ≤ l.length := by
  induction l with
  | nil => simp
  | cons a t ih =>
    simp only [List.count_cons, List.length_cons]
    by_cases h1 : a = "high" <;> by_cases h2 : a = "moderate" <;> by_cases h3 : a = "low" <;>
      simp_all <;> omega

theorem count_three_eq (l : List String)
    (h : ∀ x ∈ l, x = "low" ∨ x = "moderate" ∨ x = "high") :
    l.count "high" + l.count "moderate" + l.count "low" = l.length := by
  induction l with
  | nil => simp
  | cons a t ih =>
    have ha := h a (List.mem_cons_self a t)
    have ht : ∀ x ∈ t, x = "low" ∨ x = "moderate" ∨ x = "high" :=
      fun x hx => h x (List.mem_cons_of_mem a hx)
    have ih2 := ih ht
    simp only [List.count_cons, List.length_cons]
    rcases ha with ha | ha | ha <;> subst ha <;> simp_all <;> omega

/-- C1 (amended): in every `checks_summary` entry,
`flag_percentage = round(flag / rep_count * 100, 1)`, a missing severity is
treated as `low`, and `ok + watch + flag ≤ rep_count`, with equality whenever
every severity of the session's reps for that check is one of the three
canonical values; a severity string outside `{low, moderate, high}` is
counted in none of the three buckets. -/
theorem checks_summary_counts (s : Session) (c : CheckName) (cc : CheckCounts)
    (hmem : (c, cc) ∈ (analyze_single_session s).checks_summary) :
    cc.flag_percentage =
      pyround 1 ((cc.flag : ℚ) / ((analyze_single_session s).rep_count : ℚ) * 100) ∧
    cc.ok + cc.watch + cc.flag ≤ (analyze_single_session s).rep_count ∧
    ((∀ r ∈ s.reps, r.sevFor c = "low" ∨ r.sevFor c = "moderate" ∨ r.sevFor c = "high") →
      cc.ok + cc.watch + cc.flag = (analyze_single_session s).rep_count) := by
  by_cases h0 : s.reps.length = 0
  · exfalso
    unfold analyze_single_session at hmem
    simp [h0] at hmem
  · unfold analyze_single_session at hmem ⊢
    simp only [if_neg h0] at hmem ⊢
    simp only [List.mem_map] at hmem
    obtain ⟨c0, -, heq⟩ := hmem
    cases heq
    dsimp only
    refine ⟨?_, ?_, ?_⟩
    · rw [if_pos (Nat.pos_of_ne_zero h0)]
    · have h := count_three_le (severitiesFor s.reps c)
      simp only [severitiesFor, List.length_map] at h ⊢
      omega
    · intro hcanon
      have hall : ∀ x ∈ severitiesFor s.reps c, x = "low" ∨ x = "moderate" ∨ x = "high" := by
        intro x hx
        simp only [severitiesFor, List.mem_map] at hx
        obtain ⟨r, hr, rfl⟩ := hx
        exact hcanon r hr
      have h := count_three_eq (severitiesFor s.reps c) hall
      simp only [severitiesFor, List.length_map] at h ⊢
      omega

/-- C1 counterexample: a rep whose severity string is outside the three
canonical values (here `"severe"`) is counted in none of `ok`, `watch`,
`flag`, so `ok + watch + flag = 0` while `rep_count = 1`: the claim's
`ok + watch + flag = rep_count` with unknown severity treated as `low`
fails on the code. -/
theorem checks_summary_unknown_severity_counterexample :
    ((analyze_single_session
        ⟨none, none, [⟨[(.depth, ⟨some "severe", none⟩)]⟩]⟩).checks_summary.lookup
        CheckName.depth).map (fun cc => (cc.ok, cc.watch, cc.flag)) = some (0, 0, 0) ∧
    (analyze_single_session
        ⟨none, none, [⟨[(.depth, ⟨some "severe", none⟩)]⟩]⟩).rep_count = 1 ∧
    (0 : ℕ) + 0 + 0 ≠ 1 := by
  refine ⟨?_, rfl, by omega⟩
  decide

theorem checks_summary_counts_witness :
    (0 : ℕ) + 0 + 1 =
      (analyze_single_session ⟨none, none, [⟨[(.depth, ⟨some "high", none⟩)]⟩]⟩).rep_count :=
  (checks_summary_counts ⟨none, none, [⟨[(.depth, ⟨some "high", none⟩)]⟩]⟩
    .depth ⟨0, 0, 1, 100⟩
    (by
      simp [analyze_single_session, canonicalChecks, severitiesFor,
        RepRecord.sevFor, RepRecord.getCheckD]
      norm_num [pyround, rndHalfEven])).2.2 (by decide)

/-! ## C3: recommendation list -/

/-- C3 (amended): the generated recommendation list always has length at most
5, and the closing record-your-sets tip is present whenever at most 4 messages
from the rule cascade precede it; when the cascade already produced 5 or more
messages, the hard cap applied at assembly drops the tip. -/
theorem recommendations_cap (weak_areas : List WeakArea) (trends : TrendResult) :
    (generate_recommendations weak_areas trends).length ≤ 5 ∧
    ((recommendations_before_tip weak_areas trends).length ≤ 4 →
      recordSetsTipMsg ∈ generate_recommendations weak_areas trends) := by
  constructor
  · simp only [generate_recommendations, List.length_take]
    omega
  · intro h
    unfold generate_recommendations
    rw [List.take_of_length_le (by simp; omega)]
    exact List.mem_append_right _ (List.mem_singleton.mpr rfl)

theorem recommendations_cap_witness :
    recordSetsTipMsg ∈ generate_recommendations []
      (.insufficientHistory "insufficient_data" "Need more sessions to detect trends" none) :=
  (recommendations_cap [] (.insufficientHistory "insufficient_data"
    "Need more sessions to detect trends" none)).2 (by decide)

/-- C3 counterexample: with a high-severity top weak area and all five checks
degrading by more than 10 points, the rule cascade yields 6 messages, so the
5-message cap drops the closing record-your-sets tip: the claim that the tip
is always present fails on the code. -/
theorem recommendations_tip_dropped_counterexample :
    recordSetsTipMsg ∉ generate_recommendations
      [⟨.depth, 2, "high", [], "cue"⟩]
      (.computed [(.depth, ⟨"degrading", 100⟩), (.knee_tracking, ⟨"degrading", 100⟩),
          (.torso_angle, ⟨"degrading", 100⟩), (.heel_lift, ⟨"degrading", 100⟩),
          (.asymmetry, ⟨"degrading", 100⟩)] "stable" "interp") ∧
    (generate_recommendations
      [⟨.depth, 2, "high", [], "cue"⟩]
      (.computed [(.depth, ⟨"degrading", 100⟩), (.knee_tracking, ⟨"degrading", 100⟩),
          (.torso_angle, ⟨"degrading", 100⟩), (.heel_lift, ⟨"degrading", 100⟩),
          (.asymmetry, ⟨"degrading", 100⟩)] "stable" "interp")).length = 5 := by
  constructor
  · decide
  · decide

/-! ## C5: weak-area ranking -/

/-- The ordering the weak-area list is claimed to satisfy: strictly greater
score first, ties resolved by canonical check order. -/
def scoreRel (a b : CheckName × ℚ) : Prop :=
  b.2 < a.2 ∨ (a.2 = b.2 ∧ a.1.idx < b.1.idx)

theorem pairwise_insertDescBy {a : CheckName × ℚ} {l : List (CheckName × ℚ)}
    (h : l.Pairwise scoreRel) (ha : ∀ b ∈ l, b.1.idx < a.1.idx) :
    (insertDescBy a l).Pairwise scoreRel := by
  induction l with
  | nil => simp [insertDescBy]
  | cons b t ih =>
    rw [List.pairwise_cons] at h
    obtain ⟨hb, ht⟩ := h
    by_cases hc : a.2 ≤ b.2
    · simp only [insertDescBy, if_pos hc]
      rw [List.pairwise_cons]
      refine ⟨?_, ih ht (fun x hx => ha x (List.mem_cons_of_mem b hx))⟩
      intro x hx
      rcases mem_insertDescBy.mp hx with rfl | hx
      · rcases lt_or_eq_of_le hc with hlt | heq
        · exact Or.inl hlt
        · exact Or.inr ⟨heq.symm, ha b (List.mem_cons_self b t)⟩
      · exact hb x hx
    · push_neg at hc
      simp only [insertDescBy, if_neg (not_le.mpr hc)]
      rw [List.pairwise_cons]
      refine ⟨?_, List.pairwise_cons.mpr ⟨hb, ht⟩⟩
      intro x hx
      rcases List.mem_cons.mp hx with rfl | hx
      · exact Or.inl hc
      · rcases hb x hx with hlt | ⟨heq, _⟩
        · exact Or.inl (hlt.trans hc)
        · exact Or.inl (heq ▸ hc)

theorem pairwise_sortDescBy_aux :
    ∀ (l acc : List (CheckName × ℚ)),
      acc.Pairwise scoreRel →
      (∀ b ∈ acc, ∀ a ∈ l, b.1.idx < a.1.idx) →
      l.Pairwise (fun p q => p.1.idx < q.1.idx) →
      (l.foldl (fun acc a => insertDescBy a acc) acc).Pairwise scoreRel := by
  intro l
  induction l with
  | nil => intro acc h _ _; exact h
  | cons a t ih =>
    intro acc hacc hcross hl
    rw [List.pairwise_cons] at hl
    refine ih _ (pairwise_insertDescBy hacc
      (fun b hb => hcross b hb a (List.mem_cons_self a t))) ?_ hl.2
    intro b hb x hx
    rcases mem_insertDescBy.mp hb with rfl | hb
    · exact hl.1 x hx
    · exact hcross b hb x (List.mem_cons_of_mem a hx)

theorem pairwise_sortDescBy {l : List (CheckName × ℚ)}
    (hl : l.Pairwise (fun p q => p.1.idx < q.1.idx)) :
    (sortDescBy l).Pairwise scoreRel :=
  pairwise_sortDescBy_aux l [] List.Pairwise.nil (by simp) hl

/-- C5: the weak-area list is ordered by `avg_score` descending, ties
preserving the canonical check order; it contains no entry whose average
score is 0, and it has length at most 5. -/
theorem weak_areas_ranked (s : Session) :
    (identify_weak_areas s).length ≤ 5 ∧
    (∀ e ∈ identify_weak_areas s, avg_score s.reps e.check ≠ 0) ∧
    (identify_weak_areas s).Pairwise (fun e1 e2 =>
      avg_score s.reps e2.check < avg_score s.reps e1.check ∨
      (avg_score s.reps e1.check = avg_score s.reps e2.check ∧
        e1.check.idx < e2.check.idx)) := by
  have hpairs : (canonicalChecks.map (fun c => (c, avg_score s.reps c))).Pairwise
      (fun p q => p.1.idx < q.1.idx) := by
    rw [List.pairwise_map]
    have base : canonicalChecks.Pairwise (fun a b => CheckName.idx a < CheckName.idx b) := by
      decide
    exact base.imp (fun h => h)
  have hsorted := pairwise_sortDescBy hpairs
  have hmemscore : ∀ p ∈ sortDescBy (canonicalChecks.map (fun c => (c, avg_score s.reps c))),
      p.2 = avg_score s.reps p.1 := by
    intro p hp
    rcases List.mem_map.mp (mem_sortDescBy.mp hp) with ⟨c, _, rfl⟩
    rfl
  unfold identify_weak_areas
  refine ⟨?_, ?_, ?_⟩
  · simp only [List.length_take]
    omega
  · intro e he
    have he' := List.mem_of_mem_take he
    rcases List.mem_map.mp he' with ⟨p, hpf, rfl⟩
    have hps := List.mem_filter.mp hpf
    have hpos : 0 < p.2 := by simpa using hps.2
    have := hmemscore p hps.1
    exact fun hzero => absurd (this ▸ hpos) (by rw [hzero]; exact lt_irrefl 0)
  · have h1 : (sortDescBy (canonicalChecks.map (fun c => (c, avg_score s.reps c)))).Pairwise
        (fun p q => avg_score s.reps q.1 < avg_score s.reps p.1 ∨
          (avg_score s.reps p.1 = avg_score s.reps q.1 ∧ p.1.idx < q.1.idx)) := by
      refine List.Pairwise.imp_of_mem ?_ hsorted
      intro p q hp hq hrel
      rw [← hmemscore p hp, ← hmemscore q hq]
      exact hrel
    have h2 := h1.filter (fun p => decide (0 < p.2))
    refine List.Pairwise.sublist (List.take_sublist 5 _) ?_
    rw [List.pairwise_map]
    exact h2.imp (fun h => h)

theorem depth_entry_mem :
    (⟨.depth, pyround 2 2, "high", [],
      "Squat deeper - aim for hip crease below knee level."⟩ : WeakArea) ∈
      identify_weak_areas ⟨none, none, [⟨[(.depth, ⟨some "high", none⟩)]⟩]⟩ := by
      have hd : avg_score [⟨[(.depth, ⟨some "high", none⟩)]⟩] CheckName.depth = 2 := by
        simp [avg_score, RepRecord.wgtFor, RepRecord.sevFor, RepRecord.getCheckD,
          severity_weights, List.lookup]
        try decide
      have hk : avg_score [⟨[(.depth, ⟨some "high", none⟩)]⟩] CheckName.knee_tracking = 0 := by
        simp [avg_score, RepRecord.wgtFor, RepRecord.sevFor, RepRecord.getCheckD,
          severity_weights, List.lookup]
        try decide
      have ht : avg_score [⟨[(.depth, ⟨some "high", none⟩)]⟩] CheckName.torso_angle = 0 := by
        simp [avg_score, RepRecord.wgtFor, RepRecord.sevFor, RepRecord.getCheckD,
          severity_weights, List.lookup]
        try decide
      have hh : avg_score [⟨[(.depth, ⟨some "high", none⟩)]⟩] CheckName.heel_lift = 0 := by
        simp [avg_score, RepRecord.wgtFor, RepRecord.sevFor, RepRecord.getCheckD,
          severity_weights, List.lookup]
        try decide
      have ha : avg_score [⟨[(.depth, ⟨some "high", none⟩)]⟩] CheckName.asymmetry = 0 := by
        simp [avg_score, RepRecord.wgtFor, RepRecord.sevFor, RepRecord.getCheckD,
          severity_weights, List.lookup]
        try decide
      unfold identify_weak_areas
      dsimp only
      rw [show canonicalChecks.map
            (fun c => (c, avg_score [⟨[(.depth, ⟨some "high", none⟩)]⟩] c)) =
          [(CheckName.depth, (2 : ℚ)), (CheckName.knee_tracking, 0),
           (CheckName.torso_angle, 0), (CheckName.heel_lift, 0),
           (CheckName.asymmetry, 0)] from by
        simp [canonicalChecks, hd, hk, ht, hh, ha]]
      simp [sortDescBy, insertDescBy, worstForCheck, RepRecord.wgtFor,
        RepRecord.sevFor, RepRecord.evFor, RepRecord.getCheckD, severity_weights,
        get_cue_for_check, List.lookup]

theorem weak_areas_ranked_witness :
    avg_score [⟨[(.depth, ⟨some "high", none⟩)]⟩] CheckName.depth ≠ 0 :=
  (weak_areas_ranked ⟨none, none, [⟨[(.depth, ⟨some "high", none⟩)]⟩]⟩).2.1
    ⟨.depth, pyround 2 2, "high", [],
      "Squat deeper - aim for hip crease below knee level."⟩
    depth_entry_mem

/-! ## C6: worst-rep evidence and coaching cue -/

theorem worstFold_spec (c : CheckName) :
    ∀ (l : List RepRecord) (acc : String × Option Evidence),
      (l.foldl (fun acc r =>
          if severity_weights acc.1 < r.wgtFor c then (r.sevFor c, some (r.evFor c)) else acc)
        acc = acc ∧ ∀ r ∈ l, r.wgtFor c ≤ severity_weights acc.1) ∨
      (∃ pre r post, l = pre ++ r :: post ∧
        l.foldl (fun acc r =>
            if severity_weights acc.1 < r.wgtFor c then (r.sevFor c, some (r.evFor c)) else acc)
          acc = (r.sevFor c, some (r.evFor c)) ∧
        severity_weights acc.1 < r.wgtFor c ∧
        (∀ x ∈ pre, x.wgtFor c < r.wgtFor c) ∧
        (∀ x ∈ post, x.wgtFor c ≤ r.wgtFor c)) := by
  intro l
  induction l with
  | nil => intro acc; exact Or.inl ⟨rfl, by simp⟩
  | cons r0 t ih =>
    intro acc
    by_cases h0 : severity_weights acc.1 < r0.wgtFor c
    · have hfold : ∀ (u : List RepRecord),
          (r0 :: u).foldl (fun acc r =>
            if severity_weights acc.1 < r.wgtFor c then (r.sevFor c, some (r.evFor c)) else acc)
            acc = u.foldl (fun acc r =>
            if severity_weights acc.1 < r.wgtFor c then (r.sevFor c, some (r.evFor c)) else acc)
            (r0.sevFor c, some (r0.evFor c)) := by
        intro u
        simp [List.foldl_cons, if_pos h0]
      rcases ih (r0.sevFor c, some (r0.evFor c)) with
        ⟨heq, hle⟩ | ⟨pre, r, post, hsplit, hres, hgt, hpre, hpost⟩
      · right
        refine ⟨[], r0, t, rfl, ?_, h0, by simp, ?_⟩
        · rw [hfold t, heq]
        · intro x hx
          exact hle x hx
      · right
        refine ⟨r0 :: pre, r, post, by simp [hsplit], ?_, lt_trans h0 hgt, ?_, hpost⟩
        · rw [hfold t, hres]
        · intro x hx
          rcases List.mem_cons.mp hx with rfl | hx
          · exact hgt
          · exact hpre x hx
    · have hfold : (r0 :: t).foldl (fun acc r =>
          if severity_weights acc.1 < r.wgtFor c then (r.sevFor c, some (r.evFor c)) else acc)
          acc = t.foldl (fun acc r =>
          if severity_weights acc.1 < r.wgtFor c then (r.sevFor c, some (r.evFor c)) else acc)
          acc := by
        simp [List.foldl_cons, if_neg h0]
      push_neg at h0
      rcases ih acc with ⟨heq, hle⟩ | ⟨pre, r, post, hsplit, hres, hgt, hpre, hpost⟩
      · left
        refine ⟨by rw [hfold, heq], ?_⟩
        intro x hx
        rcases List.mem_cons.mp hx with rfl | hx
        · exact h0
        · exact hle x hx
      · right
        refine ⟨r0 :: pre, r, post, by simp [hsplit], by rw [hfold, hres], hgt, ?_, hpost⟩
        intro x hx
        rcases List.mem_cons.mp hx with rfl | hx
        · exact lt_of_le_of_lt h0 hgt
        · exact hpre x hx

theorem exists_pos_of_avg_pos {reps : List RepRecord} {c : CheckName}
    (h : 0 < avg_score reps c) : ∃ r ∈ reps, 0 < r.wgtFor c := by
  by_contra hno
  push_neg at hno
  have hz : (reps.map (fun r => ((r.wgtFor c : ℕ) : ℚ))).sum = 0 := by
    apply List.sum_eq_zero
    intro x hx
    rcases List.mem_map.mp hx with ⟨r, hr, rfl⟩
    have h1 := hno r hr
    have h2 : r.wgtFor c = 0 := by omega
    simp [h2]
  rw [avg_score] at h
  by_cases hreps : reps = []
  · rw [if_pos hreps] at h
    exact lt_irrefl 0 h
  · rw [if_neg hreps, hz] at h
    simp at h

/-- C6: every emitted weak-area entry takes its `worst_severity` and
`evidence` from the first rep (in rep order) whose severity weight for that
check is maximal over all reps, and its cue is the fixed table entry for
`(check, worst_severity)` (with the generic fallback built into the table
lookup). -/
theorem weak_area_worst_rep (s : Session) (e : WeakArea)
    (he : e ∈ identify_weak_areas s) :
    e.cue = get_cue_for_check e.check e.worst_severity ∧
    ∃ pre r post, s.reps = pre ++ r :: post ∧
      e.worst_severity = r.sevFor e.check ∧
      e.evidence = r.evFor e.check ∧
      (∀ x ∈ pre, x.wgtFor e.check < r.wgtFor e.check) ∧
      (∀ x ∈ s.reps, x.wgtFor e.check ≤ r.wgtFor e.check) := by
  unfold identify_weak_areas at he
  have he' := List.mem_of_mem_take he
  rcases List.mem_map.mp he' with ⟨p, hpf, rfl⟩
  have hps := List.mem_filter.mp hpf
  have hpos : 0 < p.2 := by simpa using hps.2
  have hscore : p.2 = avg_score s.reps p.1 := by
    rcases List.mem_map.mp (mem_sortDescBy.mp hps.1) with ⟨c, _, rfl⟩
    rfl
  rcases worstFold_spec p.1 s.reps ("low", none) with
    ⟨heq, hle⟩ | ⟨pre, r, post, hsplit, hres, _, hpre, hpost⟩
  · exfalso
    rw [hscore] at hpos
    obtain ⟨r, hr, hrpos⟩ := exists_pos_of_avg_pos hpos
    have hle2 := hle r hr
    simp [severity_weights] at hle2
    omega
  · refine ⟨rfl, pre, r, post, hsplit, ?_, ?_, hpre, ?_⟩
    · show (worstForCheck s.reps p.1).1 = r.sevFor p.1
      unfold worstForCheck
      rw [hres]
    · show (worstForCheck s.reps p.1).2.getD [] = r.evFor p.1
      unfold worstForCheck
      rw [hres]
      rfl
    · intro x hx
      rw [hsplit] at hx
      rcases List.mem_append.mp hx with hx | hx
      · exact le_of_lt (hpre x hx)
      · rcases List.mem_cons.mp hx with rfl | hx
        · exact le_refl _
        · exact hpost x hx

theorem weak_area_worst_rep_witness :
    (⟨.depth, pyround 2 2, "high", [],
      "Squat deeper - aim for hip crease below knee level."⟩ : WeakArea).cue =
      get_cue_for_check CheckName.depth "high" :=
  (weak_area_worst_rep ⟨none, none, [⟨[(.depth, ⟨some "high", none⟩)]⟩]⟩
    ⟨.depth, pyround 2 2, "high", [],
      "Squat deeper - aim for hip crease below knee level."⟩
    depth_entry_mem).1

/-! ## C2: trend classification from window endpoints only -/

theorem length_insertAscBy (now : ℕ) (a : Session) (l : List Session) :
    (insertAscBy now a l).length = l.length + 1 := by
  induction l with
  | nil => rfl
  | cons b t ih =>
    by_cases h : sessSortKey now b ≤ sessSortKey now a
    · simp [insertAscBy, if_pos h, ih]
    · simp [insertAscBy, if_neg h]

theorem length_sortByTimestamp_aux (now : ℕ) :
    ∀ (l acc : List Session),
      (l.foldl (fun acc a => insertAscBy now a acc) acc).length = acc.length + l.length := by
  intro l
  induction l with
  | nil => intro acc; simp
  | cons a t ih =>
    intro acc
    rw [List.foldl_cons, ih, length_insertAscBy, List.length_cons]
    omega

theorem length_sortByTimestamp (now : ℕ) (l : List Session) :
    (sortByTimestamp now l).length = l.length := by
  unfold sortByTimestamp
  rw [length_sortByTimestamp_aux]
  simp

/-- The trend result determined solely by the first and last sessions of the
(oldest-5) window; `calculate_trends` factors through this whenever the
history has at least 2 entries. -/
def endpoint_trends (a b : Session) : TrendResult :=
  let cft := canonicalChecks.map (fun c =>
    (c, TrendInfo.mk
      (if failure_rate c b < failure_rate c a then "improving"
       else if failure_rate c a < failure_rate c b then "degrading" else "stable")
      (pyround 1 (failure_rate c b - failure_rate c a))))
  let rt :=
    if a.rep_count.getD 0 < b.rep_count.getD 0 then "increasing"
    else if b.rep_count.getD 0 < a.rep_count.getD 0 then "decreasing" else "stable"
  .computed cft rt (interpret_trends cft rt)

theorem calculate_trends_endpoints (now : ℕ) (h : List Session) (hl : 2 ≤ h.length)
    (a b : Session)
    (hh : ((sortByTimestamp now h).take 5).head? = some a)
    (hb : ((sortByTimestamp now h).take 5).getLast? = some b) :
    calculate_trends now h = endpoint_trends a b := by
  unfold calculate_trends
  rw [if_neg (by omega)]
  have hwlen : 2 ≤ ((sortByTimestamp now h).take 5).length := by
    rw [List.length_take, length_sortByTimestamp]
    omega
  have hhead : ∀ {γ : Type} (f : Session → γ) (z : γ),
      (((sortByTimestamp now h).take 5).map f).headD z = f a := by
    intro γ f z
    rw [List.headD_eq_head?_getD, List.head?_map, hh]
    rfl
  have hlast : ∀ {γ : Type} (f : Session → γ) (z : γ),
      (((sortByTimestamp now h).take 5).map f).getLastD z = f b := by
    intro γ f z
    rw [List.getLastD_eq_getLast?, List.getLast?_map, hb]
    rfl
  have hcft : (canonicalChecks.filterMap (fun c =>
      let failure_rates := ((sortByTimestamp now h).take 5).map (failure_rate c)
      if 1 < failure_rates.length then
        let rfirst := failure_rates.headD 0
        let rlast := failure_rates.getLastD 0
        some (c, TrendInfo.mk (if rlast < rfirst then "improving"
                  else if rfirst < rlast then "degrading" else "stable")
                (pyround 1 (rlast - rfirst)))
      else none)) =
      canonicalChecks.map (fun c =>
        (c, TrendInfo.mk
          (if failure_rate c b < failure_rate c a then "improving"
           else if failure_rate c a < failure_rate c b then "degrading" else "stable")
          (pyround 1 (failure_rate c b - failure_rate c a)))) := by
    rw [List.filterMap_eq_map_iff_forall_eq_some.mpr]
    intro c _
    dsimp only
    rw [if_pos (by rw [List.length_map]; omega)]
    rw [hhead, hlast]
  dsimp only
  rw [hcft, hhead (fun s => (s.rep_count.getD 0 : ℤ)) 0,
    hlast (fun s => (s.rep_count.getD 0 : ℤ)) 0]
  have hlen1 : 1 < (((sortByTimestamp now h).take 5).map
      (fun s => (s.rep_count.getD 0 : ℤ))).length := by
    rw [List.length_map]
    omega
  rw [endpoint_trends]
  simp only [hlen1, true_and]

/-- C2: trend analysis sorts the history ascending by timestamp, restricts to
the first 5 entries of the oldest-first order, and classifies every per-check
trend and the rep-count trend from the first and last entries of that window
alone; two histories of length at least 2 whose windows agree on first and
last entries (in particular, two histories differing only in the interior
sessions of the window) produce identical trend results. -/
theorem trends_window_invariance (now : ℕ) (h1 h2 : List Session)
    (hl1 : 2 ≤ h1.length) (hl2 : 2 ≤ h2.length)
    (hhead : ((sortByTimestamp now h1).take 5).head? =
      ((sortByTimestamp now h2).take 5).head?)
    (hlast : ((sortByTimestamp now h1).take 5).getLast? =
      ((sortByTimestamp now h2).take 5).getLast?) :
    calculate_trends now h1 = calculate_trends now h2 := by
  have hne : ((sortByTimestamp now h1).take 5) ≠ [] := by
    intro hnil
    have hlen := congrArg List.length hnil
    rw [List.length_take, length_sortByTimestamp] at hlen
    simp only [List.length_nil] at hlen
    omega
  obtain ⟨a, ha⟩ : ∃ a, ((sortByTimestamp now h1).take 5).head? = some a :=
    ⟨_, List.head?_eq_head hne⟩
  obtain ⟨b, hbl⟩ : ∃ b, ((sortByTimestamp now h1).take 5).getLast? = some b :=
    ⟨_, List.getLast?_eq_getLast _ hne⟩
  rw [calculate_trends_endpoints now h1 hl1 a b ha hbl,
    calculate_trends_endpoints now h2 hl2 a b (by rw [← hhead]; exact ha)
      (by rw [← hlast]; exact hbl)]

theorem trends_window_invariance_witness :
    calculate_trends 100
      [⟨some 1, some 1, []⟩, ⟨some 2, some 5, []⟩, ⟨some 3, some 2, []⟩] =
    calculate_trends 100
      [⟨some 1, some 1, []⟩, ⟨some 2, some 7, [⟨[(.depth, ⟨some "high", none⟩)]⟩]⟩,
       ⟨some 3, some 2, []⟩] :=
  trends_window_invariance 100 _ _ (by decide) (by decide) (by decide) (by decide)

/-! ## C4: consistency score -/

theorem rndHalfEvenR_nonneg {x : ℝ} (h0 : 0 ≤ x) : 0 ≤ rndHalfEvenR x := by
  have hf : 0 ≤ ⌊x⌋ := Int.floor_nonneg.mpr h0
  unfold rndHalfEvenR
  split_ifs <;> omega

theorem rndHalfEvenR_le_100 {x : ℝ} (h : x ≤ 100) : rndHalfEvenR x ≤ 100 := by
  have hf : ⌊x⌋ ≤ 100 := by
    have h1 : (⌊x⌋ : ℝ) ≤ 100 := le_trans (Int.floor_le x) h
    exact_mod_cast h1
  unfold rndHalfEvenR
  split_ifs with h1 h2 h3
  · exact hf
  · have hlow : (⌊x⌋ : ℝ) < x - 1/2 := by linarith
    have : (⌊x⌋ : ℝ) < 99.5 := by
      have := Int.floor_le x
      linarith
    have hcast : (⌊x⌋ : ℝ) < 100 := by linarith
    have : ⌊x⌋ < 100 := by exact_mod_cast hcast
    omega
  · exact hf
  · have hge : 1/2 ≤ x - ⌊x⌋ := le_of_not_lt h1
    have : (⌊x⌋ : ℝ) ≤ 99.5 := by linarith
    have : ⌊x⌋ < 100 := by
      have h2 : (⌊x⌋ : ℝ) < 100 := lt_of_le_of_lt this (by norm_num)
      exact_mod_cast h2
    omega

theorem rndHalfEvenR_eq_100_iff {x : ℝ} (h0 : 0 ≤ x) (h1 : x ≤ 100) :
    rndHalfEvenR x = 100 ↔ 99.5 ≤ x := by
  constructor
  · intro hr
    by_contra hlt
    push_neg at hlt
    unfold rndHalfEvenR at hr
    split_ifs at hr with hc1 hc2 hc3
    · have : (⌊x⌋ : ℝ) ≤ x := Int.floor_le x
      have : (⌊x⌋ : ℝ) < 99.5 := by linarith
      have hcast : (⌊x⌋ : ℝ) < 100 := by linarith
      have : ⌊x⌋ < 100 := by exact_mod_cast hcast
      omega
    · have : (⌊x⌋ : ℝ) < x - 1/2 := by linarith
      have : (⌊x⌋ : ℝ) < 99 := by linarith
      have : ⌊x⌋ < 99 := by exact_mod_cast this
      omega
    · have : (⌊x⌋ : ℝ) ≤ x := Int.floor_le x
      have : (⌊x⌋ : ℝ) < 99.5 := by linarith
      have hcast : (⌊x⌋ : ℝ) < 100 := by linarith
      have : ⌊x⌋ < 100 := by exact_mod_cast hcast
      omega
    · have hge : 1/2 ≤ x - ⌊x⌋ := le_of_not_lt hc1
      have : (⌊x⌋ : ℝ) ≤ x - 1/2 := by linarith
      have : (⌊x⌋ : ℝ) < 99 := by linarith
      have : ⌊x⌋ < 99 := by exact_mod_cast this
      omega
  · intro hx
    by_cases hx100 : x = 100
    · subst hx100
      unfold rndHalfEvenR
      rw [show ⌊(100:ℝ)⌋ = 100 by norm_num]
      rw [if_pos (by norm_num)]
    · have hlt : x < 100 := lt_of_le_of_ne h1 hx100
      have hfl : ⌊x⌋ = 99 := by
        rw [Int.floor_eq_iff]
        constructor
        · push_cast
          linarith [show (99:ℝ) ≤ 99.5 by norm_num]
        · push_cast
          linarith
      unfold rndHalfEvenR
      rw [hfl]
      by_cases hhalf : x - (99:ℤ) < 1/2
      · exfalso
        push_cast at hhalf
        have : (99.5:ℝ) ≤ x := hx
        linarith [show (99:ℝ) + 1/2 = 99.5 by norm_num]
      · rw [if_neg hhalf]
        by_cases hgt : (1:ℝ)/2 < x - (99:ℤ)
        · rw [if_pos hgt]
          norm_num
        · rw [if_neg hgt]
          rw [if_neg (by decide : ¬ Even (99:ℤ))]
          norm_num

theorem check_variances_snd_nonneg (s : Session) :
    ∀ p ∈ check_variances s, 0 ≤ p.2 := by
  intro p hp
  unfold check_variances at hp
  rcases List.mem_filterMap.mp hp with ⟨c, -, hc⟩
  dsimp only at hc
  by_cases hd : 1 < (scoresFor s.reps c).dedup.length
  · rw [if_pos hd] at hc
    cases hc
    exact Real.sqrt_nonneg _
  · rw [if_neg hd] at hc
    cases hc

theorem avg_variance_nonneg (s : Session) : 0 ≤ avg_variance s := by
  unfold avg_variance
  cases hcv : check_variances s with
  | nil => simp
  | cons v vs =>
    apply div_nonneg
    · apply List.sum_nonneg
      intro x hx
      rcases List.mem_map.mp hx with ⟨p, hp, rfl⟩
      exact check_variances_snd_nonneg s p (hcv ▸ hp)
    · positivity

/-- C4 (amended): the consistency score always lies in `[0, 1]`; with fewer
than 2 reps the result is exactly
`{consistency_score: 1.0, interpretation: "Insufficient data"}`; and with at
least 2 reps the score equals 1.0 exactly when `avg_variance ≤ 1/80`
(in particular whenever `avg_variance = 0`, since
`round(max(0, 1 - v/2.5), 2)` still yields 1.0 for any `v ≤ 0.0125`). -/
theorem consistency_score_props (s : Session) :
    0 ≤ (calculate_consistency s).score ∧
    (calculate_consistency s).score ≤ 1 ∧
    (s.reps.length < 2 →
      calculate_consistency s = .insufficientData 1 "Insufficient data") ∧
    (2 ≤ s.reps.length →
      ((calculate_consistency s).score = 1 ↔ avg_variance s ≤ 1/80)) := by
  by_cases hlen : s.reps.length < 2
  · unfold calculate_consistency
    rw [if_pos hlen]
    exact ⟨by norm_num [ConsistencyResult.score], by norm_num [ConsistencyResult.score],
      fun _ => rfl, fun h => absurd h (by omega)⟩
  · push_neg at hlen
    unfold calculate_consistency
    rw [if_neg (by omega)]
    dsimp only [ConsistencyResult.score]
    have hav0 : 0 ≤ avg_variance s := avg_variance_nonneg s
    have hm0 : (0:ℝ) ≤ max 0 (1 - avg_variance s / 2.5) := le_max_left 0 _
    have hm1 : max (0:ℝ) (1 - avg_variance s / 2.5) ≤ 1 := by
      apply max_le
      · norm_num
      · have : 0 ≤ avg_variance s / 2.5 := by positivity
        linarith
    have hx0 : (0:ℝ) ≤ max 0 (1 - avg_variance s / 2.5) * 10 ^ 2 := by positivity
    have hx1 : max (0:ℝ) (1 - avg_variance s / 2.5) * 10 ^ 2 ≤ 100 := by nlinarith
    have hr0 := rndHalfEvenR_nonneg hx0
    have hr1 := rndHalfEvenR_le_100 hx1
    refine ⟨?_, ?_, fun h => absurd h (by omega), fun _ => ?_⟩
    · unfold pyroundR
      apply div_nonneg
      · exact_mod_cast hr0
      · positivity
    · unfold pyroundR
      rw [div_le_one (by positivity)]
      calc ((rndHalfEvenR (max (0:ℝ) (1 - avg_variance s / 2.5) * 10 ^ 2)) : ℝ)
          ≤ (100 : ℝ) := by exact_mod_cast hr1
        _ ≤ 10 ^ 2 := by norm_num
    · unfold pyroundR
      constructor
      · intro heq
        have hrnd : rndHalfEvenR (max (0:ℝ) (1 - avg_variance s / 2.5) * 10 ^ 2) = 100 := by
          have h3 := congrArg (fun y : ℝ => y * 10 ^ 2) heq
          simp only [one_mul] at h3
          rw [div_mul_cancel₀ _ (by positivity : (10:ℝ) ^ 2 ≠ 0)] at h3
          have h4 : ((rndHalfEvenR (max (0:ℝ) (1 - avg_variance s / 2.5) * 10 ^ 2)) : ℝ)
              = 100 := by rw [h3]; norm_num
          exact_mod_cast h4
        have h995 := (rndHalfEvenR_eq_100_iff hx0 hx1).mp hrnd
        have hmax : (99.5:ℝ) / 100 ≤ max 0 (1 - avg_variance s / 2.5) := by
          rw [div_le_iff (by norm_num : (0:ℝ) < 100)]
          calc (99.5:ℝ) ≤ max 0 (1 - avg_variance s / 2.5) * 10 ^ 2 := h995
            _ = max 0 (1 - avg_variance s / 2.5) * 100 := by norm_num
        have hy : (99.5:ℝ)/100 ≤ 1 - avg_variance s / 2.5 := by
          rcases le_max_iff.mp hmax with hbad | hok
          · exfalso
            norm_num at hbad
          · exact hok
        have h5 : avg_variance s / 2.5 ≤ 0.005 := by linarith
        have h6 : avg_variance s ≤ 0.005 * 2.5 := by
          have h7 := mul_le_mul_of_nonneg_right h5 (by norm_num : (0:ℝ) ≤ 2.5)
          rwa [div_mul_cancel₀ _ (by norm_num : (2.5:ℝ) ≠ 0)] at h7
        have h8 : (0.005:ℝ) * 2.5 = 1/80 := by norm_num
        linarith
      · intro hle
        have hy : (1:ℝ) - avg_variance s / 2.5 ∈ Set.Icc (0.995:ℝ) 1 := by
          constructor
          · have : avg_variance s / 2.5 ≤ 0.005 := by
              rw [div_le_iff (by norm_num : (0:ℝ) < 2.5)]
              calc avg_variance s ≤ 1/80 := hle
                _ = 0.005 * 2.5 := by norm_num
            linarith
          · have : 0 ≤ avg_variance s / 2.5 := by positivity
            linarith
        have hmax : max (0:ℝ) (1 - avg_variance s / 2.5) = 1 - avg_variance s / 2.5 :=
          max_eq_right (le_trans (by norm_num) hy.1)
        have hrnd : rndHalfEvenR (max (0:ℝ) (1 - avg_variance s / 2.5) * 10 ^ 2) = 100 := by
          rw [rndHalfEvenR_eq_100_iff hx0 hx1, hmax]
          nlinarith [hy.1]
        rw [hrnd]
        norm_num

theorem consistency_score_props_witness :
    calculate_consistency ⟨none, some 0, []⟩ = .insufficientData 1 "Insufficient data" ∧
    0 ≤ (calculate_consistency ⟨none, some 0, []⟩).score :=
  ⟨(consistency_score_props ⟨none, some 0, []⟩).2.2.1 (by decide),
   (consistency_score_props ⟨none, some 0, []⟩).1⟩

/-- The 10000-rep session refuting C4's "exactly when": 9999 all-low reps and
a single rep with moderate depth. -/
def sBigC : Session :=
  ⟨none, none, ⟨[(.depth, ⟨some "moderate", none⟩)]⟩ :: List.replicate 9999 ⟨[]⟩⟩

theorem sBigC_scores_depth :
    scoresFor sBigC.reps .depth = 1 :: List.replicate 9999 0 := by
  unfold sBigC scoresFor
  rw [List.map_cons, List.map_replicate,
    show RepRecord.wgtFor ⟨[(.depth, ⟨some "moderate", none⟩)]⟩ .depth = 1 from by decide,
    show RepRecord.wgtFor ⟨[]⟩ .depth = 0 from by decide]

theorem sBigC_scores_knee :
    scoresFor sBigC.reps .knee_tracking = 0 :: List.replicate 9999 0 := by
  unfold sBigC scoresFor
  rw [List.map_cons, List.map_replicate,
    show RepRecord.wgtFor ⟨[(.depth, ⟨some "moderate", none⟩)]⟩ .knee_tracking = 0 from by decide,
    show RepRecord.wgtFor ⟨[]⟩ .knee_tracking = 0 from by decide]

theorem sBigC_scores_torso :
    scoresFor sBigC.reps .torso_angle = 0 :: List.replicate 9999 0 := by
  unfold sBigC scoresFor
  rw [List.map_cons, List.map_replicate,
    show RepRecord.wgtFor ⟨[(.depth, ⟨some "moderate", none⟩)]⟩ .torso_angle = 0 from by decide,
    show RepRecord.wgtFor ⟨[]⟩ .torso_angle = 0 from by decide]

theorem sBigC_scores_heel :
    scoresFor sBigC.reps .heel_lift = 0 :: List.replicate 9999 0 := by
  unfold sBigC scoresFor
  rw [List.map_cons, List.map_replicate,
    show RepRecord.wgtFor ⟨[(.depth, ⟨some "moderate", none⟩)]⟩ .heel_lift = 0 from by decide,
    show RepRecord.wgtFor ⟨[]⟩ .heel_lift = 0 from by decide]

theorem sBigC_scores_asym :
    scoresFor sBigC.reps .asymmetry = 0 :: List.replicate 9999 0 := by
  unfold sBigC scoresFor
  rw [List.map_cons, List.map_replicate,
    show RepRecord.wgtFor ⟨[(.depth, ⟨some "moderate", none⟩)]⟩ .asymmetry = 0 from by decide,
    show RepRecord.wgtFor ⟨[]⟩ .asymmetry = 0 from by decide]

theorem dedup_replicate_nat (a : ℕ) : ∀ n, (List.replicate (n + 1) a).dedup = [a] := by
  intro n
  induction n with
  | zero =>
    rw [List.replicate_succ, List.replicate_zero,
      List.dedup_cons_of_not_mem (List.not_mem_nil a), List.dedup_nil]
  | succ n ih =>
    rw [List.replicate_succ,
      List.dedup_cons_of_mem (List.mem_replicate.mpr ⟨by omega, rfl⟩), ih]

theorem dedup_big_depth : (1 :: List.replicate 9999 (0:ℕ)).dedup = [1, 0] := by
  rw [List.dedup_cons_of_not_mem (by rw [List.mem_replicate]; omega),
    show (9999:ℕ) = 9998 + 1 from by norm_num, dedup_replicate_nat]

theorem dedup_big_zero : ((0:ℕ) :: List.replicate 9999 0).dedup = [0] := by
  rw [List.dedup_cons_of_mem (List.mem_replicate.mpr ⟨by omega, rfl⟩),
    show (9999:ℕ) = 9998 + 1 from by norm_num, dedup_replicate_nat]

theorem check_variances_of_scores (s : Session)
    (d k t h a : List ℕ)
    (hd : scoresFor s.reps .depth = d)
    (hk : scoresFor s.reps .knee_tracking = k)
    (ht : scoresFor s.reps .torso_angle = t)
    (hh : scoresFor s.reps .heel_lift = h)
    (ha : scoresFor s.reps .asymmetry = a)
    (hd2 : 1 < d.dedup.length)
    (hk2 : ¬ 1 < k.dedup.length)
    (ht2 : ¬ 1 < t.dedup.length)
    (hh2 : ¬ 1 < h.dedup.length)
    (ha2 : ¬ 1 < a.dedup.length) :
    check_variances s = [(.depth, sampleStdev d)] := by
  unfold check_variances canonicalChecks
  rw [List.filterMap_cons, List.filterMap_cons, List.filterMap_cons, List.filterMap_cons,
    List.filterMap_cons, List.filterMap_nil]
  dsimp only
  rw [hd, hk, ht, hh, ha, if_pos hd2, if_neg hk2, if_neg ht2, if_neg hh2, if_neg ha2]

theorem sBigC_check_variances :
    check_variances sBigC = [(.depth, sampleStdev (1 :: List.replicate 9999 0))] :=
  check_variances_of_scores sBigC _ _ _ _ _
    sBigC_scores_depth sBigC_scores_knee sBigC_scores_torso sBigC_scores_heel
    sBigC_scores_asym
    (by rw [dedup_big_depth]; norm_num)
    (by rw [dedup_big_zero]; norm_num)
    (by rw [dedup_big_zero]; norm_num)
    (by rw [dedup_big_zero]; norm_num)
    (by rw [dedup_big_zero]; norm_num)

theorem avg_variance_of_single (s : Session) (c0 : CheckName) (v : ℝ)
    (h : check_variances s = [(c0, v)]) : avg_variance s = v := by
  unfold avg_variance
  rw [h]
  simp

theorem big_sample_variance :
    sampleVariance ((1:ℚ) :: List.replicate 9999 0) = 1/10000 := by
  have hlen : ((1:ℚ) :: List.replicate 9999 (0:ℚ)).length = 10000 := by
    rw [List.length_cons, List.length_replicate]
  have hsum : ((1:ℚ) :: List.replicate 9999 (0:ℚ)).sum = 1 := by
    rw [List.sum_cons, List.sum_replicate, smul_zero, add_zero]
  have hmean : listMean ((1:ℚ) :: List.replicate 9999 (0:ℚ)) = 1/10000 := by
    unfold listMean
    rw [if_neg (by exact List.cons_ne_nil _ _), hsum, hlen]
    norm_num
  unfold sampleVariance
  rw [if_neg (by rw [hlen]; norm_num), hmean, hlen]
  rw [List.map_cons, List.map_replicate, List.sum_cons, List.sum_replicate,
    nsmul_eq_mul]
  norm_num

theorem big_sample_stdev : sampleStdev (1 :: List.replicate 9999 0) = 1/100 := by
  unfold sampleStdev
  rw [List.map_cons, List.map_replicate]
  simp only [Nat.cast_one, Nat.cast_zero]
  rw [big_sample_variance]
  rw [show (((1:ℚ)/10000 : ℚ) : ℝ) = (1/100 : ℝ)^2 from by push_cast; norm_num]
  exact Real.sqrt_sq (by norm_num)

theorem sBigC_avg_variance : avg_variance sBigC = 1/100 := by
  rw [avg_variance_of_single sBigC .depth _ sBigC_check_variances, big_sample_stdev]

theorem consistency_score_of_avg (s : Session) (hlen : ¬ s.reps.length < 2) (v : ℝ)
    (hv : avg_variance s = v) :
    (calculate_consistency s).score = pyroundR 2 (max 0 (1 - v / 2.5)) := by
  unfold calculate_consistency
  rw [if_neg hlen]
  dsimp only [ConsistencyResult.score]
  rw [hv]

theorem rnd_996 : rndHalfEvenR (99.6:ℝ) = 100 := by
  have hfl : ⌊(99.6:ℝ)⌋ = 99 := by
    rw [Int.floor_eq_iff]
    constructor <;> norm_num
  unfold rndHalfEvenR
  rw [hfl]
  rw [if_neg (by push_cast; norm_num), if_pos (by push_cast; norm_num)]
  norm_num

/-- C4 counterexample: for a 10000-rep session with a single moderate depth
severity, `avg_variance = 1/100 ≠ 0` yet the rounded consistency score is
exactly 1.0 (`round(max(0, 1 - 0.004), 2) = round(0.996, 2) = 1.0`): the
score equals 1.0 on a session whose reps do not all have identical severity
weights, refuting the claim's "exactly when avg_variance = 0". -/
theorem consistency_one_with_variance_counterexample :
    (calculate_consistency sBigC).score = 1 ∧ avg_variance sBigC ≠ 0 := by
  have hlen : ¬ sBigC.reps.length < 2 := by
    unfold sBigC
    rw [List.length_cons, List.length_replicate]
    norm_num
  constructor
  · rw [consistency_score_of_avg sBigC hlen (1/100) sBigC_avg_variance]
    rw [show max (0:ℝ) (1 - (1/100)/2.5) = 249/250 from by
      rw [max_eq_right (by norm_num)]
      norm_num]
    unfold pyroundR
    rw [show (249/250 : ℝ) * 10^2 = 99.6 from by norm_num]
    rw [rnd_996]
    norm_num
  · rw [sBigC_avg_variance]
    norm_num
